import Mathlib

/-!
Verification of the node-files subsystem of the kubernetes-mcp-server
repository: a shallow embedding of `pkg/kubernetes/nodes.go` and
`pkg/toolsets/core/nodes.go`, followed by theorems about the embedded
definitions. Cluster and local-filesystem effects are modelled by an
explicit oracle supplying the outcome of each external call, and each
embedded operation additionally returns the ordered list of external
requests it issued.
-/

namespace KMcp

/-- The single-quote character, built by code point to keep source plain. -/
def sq : Char := Char.ofNat 39

/-- The backslash character. -/
def bs : Char := Char.ofNat 92

/-- The newline character. -/
def nl : Char := Char.ofNat 10

/-- The single-quote character as a one-character string. -/
def squote : String := String.mk [sq]

/-- Embeds the Go expression
`strings.ReplaceAll(string(content), "'", "'\\''")` from `nodeFilesPut`
(`pkg/kubernetes/nodes.go` line 231), specialised to its one-character
pattern: every single quote in the input is replaced by the four
characters quote, backslash, quote, quote. -/
def escapeSingleQuotes (s : String) : String :=
  String.mk (s.data.foldr
    (fun c acc => if c = sq then sq :: bs :: sq :: sq :: acc else c :: acc) [])

/-- Splits a character list on a separator character; the separator is not
kept, and a trailing separator yields a trailing empty chunk (the
behaviour of Go `strings.Split` for a one-character separator). -/
def splitOnChar (sep : Char) : List Char → List (List Char)
  | [] => [[]]
  | c :: cs =>
    let r := splitOnChar sep cs
    if c = sep then [] :: r
    else
      match r with
      | [] => [[c]]
      | l :: ls => (c :: l) :: ls

/-- The lines of a string, splitting on newline characters. -/
def linesOf (s : String) : List String :=
  (splitOnChar nl s.data).map String.mk

/-- Modelled from the spec: the POSIX shell semantics of a here-document
whose delimiter is quoted, which is the form `nodeFilesPut` sends to the
sandbox shell (`pkg/kubernetes/nodes.go` line 232). The shell is outside
this repository, so its behaviour is modelled: the body is every line
following the first newline of the command text, taken completely
literally (a quoted delimiter suppresses all expansions and quote
removal), up to but excluding the first line equal to the delimiter, and
each body line contributes itself followed by a newline. `rest` is the
command text after its first newline. -/
def heredocBody (delim : String) (rest : String) : String :=
  String.join
    (((linesOf rest).takeWhile (fun l => l != delim)).map (fun l => l ++ "\n"))

/-- Embeds the remote write command text built by `nodeFilesPut`
(`pkg/kubernetes/nodes.go` line 232):
`cat > /host<destPath> << 'EOF'` newline `<escaped content>` newline `EOF`. -/
def putWriteScript (destPath content : String) : String :=
  "cat > /host" ++ destPath ++ " << " ++ squote ++ "EOF" ++ squote ++ "\n"
    ++ escapeSingleQuotes content ++ "\nEOF"

/-- The file content the sandbox shell deposits at the destination when it
runs the write command of `nodeFilesPut`: the here-document body of the
script after its first newline, fed to `cat`. -/
def nodePutFileContent (content : String) : String :=
  heredocBody "EOF" (escapeSingleQuotes content ++ "\nEOF")

/-- The content returned by a subsequent Get of the same path:
`nodeFilesGet` runs `cat /host<path>` (`pkg/kubernetes/nodes.go` line 244)
and `execInPod` returns the captured standard output verbatim, so Get
returns exactly the file content Put deposited. -/
def putGetRoundTrip (content : String) : String :=
  nodePutFileContent content

/-! Sanity equations for the round-trip pipeline, kept as plain lemmas. -/

theorem escapeSingleQuotes_plain :
    escapeSingleQuotes "hello\nworld" = "hello\nworld" := by decide

theorem putGetRoundTrip_plain_example :
    putGetRoundTrip "hello\nworld" = "hello\nworld\n" := by decide

/-! ## Go path functions (Unix rules)

`nodeFilesPut` and `nodeFilesGet` use `filepath.Dir` and `filepath.Base`
from the Go standard library; these are embedded here following the Go
source for Unix paths (no volume names). -/

/-- Processes the slash-separated components of a path exactly as Go
`path/filepath.Clean` does: empty and `.` components are dropped; a `..`
component pops the previous kept component when one exists, is dropped at
the root of a rooted path, and is kept when a relative path has nothing
left to pop. The accumulator holds kept components in reverse. -/
def cleanComponents (rooted : Bool) : List String → List String → List String
  | acc, [] => acc.reverse
  | acc, c :: rest =>
    if c = "" || c = "." then cleanComponents rooted acc rest
    else if c = ".." then
      match acc with
      | top :: acc2 =>
        if top = ".." then cleanComponents rooted (".." :: top :: acc2) rest
        else cleanComponents rooted acc2 rest
      | [] =>
        if rooted then cleanComponents rooted [] rest
        else cleanComponents rooted [".."] rest
    else cleanComponents rooted (c :: acc) rest

/-- Joins strings with a separator, with no trailing separator. -/
def joinWith (sep : String) : List String → String
  | [] => ""
  | [x] => x
  | x :: y :: xs => x ++ sep ++ joinWith sep (y :: xs)

/-- Embeds Go `path/filepath.Clean` for Unix paths: shortest lexical
equivalent of the path, `.` for an empty result, leading `/` preserved. -/
def goClean (path : String) : String :=
  if path = "" then "."
  else
    let rooted := path.data.head? = some (Char.ofNat 47)
    let comps :=
      cleanComponents rooted [] ((splitOnChar (Char.ofNat 47) path.data).map String.mk)
    let joined := joinWith "/" comps
    if rooted then "/" ++ joined
    else if joined = "" then "." else joined

/-- Embeds Go `path/filepath.Base` for Unix paths: trailing slashes are
removed, then everything up to and including the final slash; the empty
path gives `.` and an all-slash path gives `/`. -/
def goBase (path : String) : String :=
  if path = "" then "."
  else
    let l := path.data.reverse.dropWhile (fun c => c = Char.ofNat 47)
    if l = [] then "/"
    else String.mk (l.takeWhile (fun c => c != Char.ofNat 47)).reverse

/-- Embeds Go `path/filepath.Dir` for Unix paths: everything up to and
including the final slash, cleaned; `.` when the path holds no slash. -/
def goDir (path : String) : String :=
  goClean (String.mk (path.data.reverse.dropWhile (fun c => c != Char.ofNat 47)).reverse)

theorem goBase_meminfo : goBase "/proc/meminfo" = "meminfo" := by decide

theorem goDir_examples :
    goDir "meminfo" = "." ∧ goDir "/a/b" = "/a" ∧ goDir "/tmp/node-file" = "/tmp" := by
  decide

/-! ## Data model

Embeds the pod manifest literal of `NodesFiles`
(`pkg/kubernetes/nodes.go` lines 134-170) and the option record
`NodeFilesOptions` (lines 113-121). -/

/-- Embeds the Go struct `NodeFilesOptions`. -/
structure NodeFilesOptions where
  NodeName : String
  Operation : String
  SourcePath : String
  DestPath : String
  Namespace : String
  Image : String
  Privileged : Bool
deriving DecidableEq, Repr

/-- Embeds `v1.SecurityContext` restricted to the one field the pod
manifest sets. -/
structure SecurityContextM where
  privileged : Bool
deriving DecidableEq, Repr

/-- Embeds `v1.VolumeMount` restricted to the fields the manifest sets. -/
structure VolumeMountM where
  name : String
  mountPath : String
deriving DecidableEq, Repr

/-- Embeds `v1.Container` restricted to the fields the manifest sets. -/
structure ContainerM where
  name : String
  image : String
  command : List String
  securityContext : SecurityContextM
  volumeMounts : List VolumeMountM
deriving DecidableEq, Repr

/-- Embeds `v1.Volume` with a host-path source. -/
structure VolumeM where
  name : String
  hostPath : String
deriving DecidableEq, Repr

/-- Embeds `v1.PodSpec` restricted to the fields the manifest sets. -/
structure PodSpecM where
  nodeName : String
  restartPolicy : String
  containers : List ContainerM
  volumes : List VolumeM
deriving DecidableEq, Repr

/-- Embeds the pod object built by `NodesFiles`: name, namespace, labels
and spec. -/
structure PodM where
  name : String
  Namespace : String
  labels : List (String × String)
  spec : PodSpecM
deriving DecidableEq, Repr

/-- Label key constant defined elsewhere in the repository; its exact
value does not bear on any claim. -/
def AppKubernetesName : String := "app.kubernetes.io/name"

/-- Label key constant defined elsewhere in the repository. -/
def AppKubernetesComponent : String := "app.kubernetes.io/component"

/-- Label key constant defined elsewhere in the repository. -/
def AppKubernetesManagedBy : String := "app.kubernetes.io/managed-by"

/-- `version.BinaryName` from the wider repository; its exact value does
not bear on any claim. -/
def versionBinaryName : String := "kubernetes-mcp-server"

/-- Embeds the defaulting prologue of `NodesFiles`
(`pkg/kubernetes/nodes.go` lines 125-131): an empty namespace becomes
`default` and an empty image becomes `busybox`. -/
def applyNodeFilesDefaults (opts : NodeFilesOptions) : NodeFilesOptions :=
  { opts with
    Namespace := if opts.Namespace = "" then "default" else opts.Namespace
    Image := if opts.Image = "" then "busybox" else opts.Image }

/-- Embeds the pod manifest literal of `NodesFiles`
(`pkg/kubernetes/nodes.go` lines 135-170), applied to the already
defaulted options and the generated pod name. -/
def buildNodeFilesPod (opts : NodeFilesOptions) (podName : String) : PodM :=
  { name := podName
    Namespace := opts.Namespace
    labels := [(AppKubernetesName, podName),
               (AppKubernetesComponent, "node-files"),
               (AppKubernetesManagedBy, versionBinaryName)]
    spec :=
      { nodeName := opts.NodeName
        restartPolicy := "Never"
        containers := [{ name := "node-files"
                         image := opts.Image
                         command := ["/bin/sh", "-c", "sleep 3600"]
                         securityContext := { privileged := opts.Privileged }
                         volumeMounts := [{ name := "node-root", mountPath := "/host" }] }]
        volumes := [{ name := "node-root", hostPath := "/" }] } }

/-! ## Effects: contexts, events and oracles -/

/-- The context a cluster request is issued under: the caller's context,
or a fresh context derived from `context.Background()` with its own
timeout in seconds. -/
inductive CtxKind where
  | caller : CtxKind
  | backgroundWithTimeoutSec : Nat → CtxKind
deriving DecidableEq, Repr

/-- One externally visible request issued by the embedded code: cluster
API calls and local filesystem calls, in program order. -/
inductive Event where
  | podCreate : PodM → Event
  | podDelete : CtxKind → String → Option String → Event
  | podGet : String → Event
  | execCall : List String → Event
  | readFileLocal : String → Event
  | mkdirAllLocal : String → Event
  | writeFileLocal : String → String → Event
deriving DecidableEq, Repr

/-- Recognises a sandbox-delete request. -/
def Event.isDelete : Event → Bool
  | .podDelete _ _ _ => true
  | _ => false

/-- Recognises a pod-create request. -/
def Event.isCreate : Event → Bool
  | .podCreate _ => true
  | _ => false

/-- Number of sandbox-delete requests in a request trace. -/
def countDeletes (evs : List Event) : Nat := evs.countP (fun e => e.isDelete)

/-- Number of pod-create requests in a request trace. -/
def countCreates (evs : List Event) : Nat := evs.countP (fun e => e.isCreate)

/-! ## Readiness wait

Embeds `waitForPodReady` (`pkg/kubernetes/nodes.go` lines 338-370). The
poll loop is driven by a finite trace of observations; each entry says
whether `time.Now().After(deadline)` held at the top of that iteration
and what the `pods.Get` call returned. The real loop sleeps two seconds
per iteration against a finite deadline, so only finitely many
observations can precede the deadline; an exhausted trace therefore
denotes that the deadline has arrived, which the loop reports as its
timeout error. -/

/-- Embeds `v1.PodPhase` (the values the code inspects, plus the rest). -/
inductive PodPhase where
  | pending
  | running
  | succeeded
  | failed
  | unknown
deriving DecidableEq, Repr

/-- Embeds `v1.PodCondition` restricted to the two fields the code reads. -/
structure PodConditionM where
  type : String
  status : String
deriving DecidableEq, Repr

/-- Embeds `v1.PodStatus` restricted to the fields the code reads. -/
structure PodStatusM where
  phase : PodPhase
  conditions : List PodConditionM
deriving DecidableEq, Repr

/-- Embeds the condition scan of `waitForPodReady` (lines 357-361): some
condition has type `Ready` with status `True`. -/
def podIsReady (st : PodStatusM) : Bool :=
  st.conditions.any (fun c => c.type = "Ready" && c.status = "True")

deriving instance DecidableEq for Except

/-- One iteration of the poll loop as observed by the code: the deadline
check at the top, then the result of the `pods.Get` call. -/
structure PollStep where
  deadlineExceeded : Bool
  getResult : Except String PodStatusM
deriving DecidableEq, Repr

/-- A poll step on which the loop keeps polling: the deadline has not
arrived, the get succeeded, and the observed status is neither
running-and-ready nor failed. -/
def PollStep.continues (s : PollStep) : Prop :=
  s.deadlineExceeded = false ∧
    ∃ st, s.getResult = Except.ok st ∧
      ¬(st.phase = PodPhase.running ∧ podIsReady st = true) ∧ st.phase ≠ PodPhase.failed

/-- The loop body of `waitForPodReady` (lines 344-369) over a finite
observation trace, returning the call result and the number of
`pods.Get` requests issued. An exhausted trace means the deadline has
arrived, giving the timeout error of line 347. -/
def waitLoop : List PollStep → Except String Unit × Nat
  | [] => (Except.error "timeout waiting for pod to be ready", 0)
  | step :: rest =>
    if step.deadlineExceeded then (Except.error "timeout waiting for pod to be ready", 0)
    else
      match step.getResult with
      | Except.error e => (Except.error e, 1)
      | Except.ok st =>
        if st.phase = PodPhase.running && podIsReady st then (Except.ok (), 1)
        else if st.phase = PodPhase.failed then (Except.error "pod failed", 1)
        else
          let r := waitLoop rest
          (r.1, r.2 + 1)

/-- Embeds `waitForPodReady` (lines 338-370): obtaining the pods client
can fail first (lines 339-342, error returned unwrapped); otherwise the
poll loop runs. Returns the call result and the `pods.Get` request
events. -/
def waitForPodReady (clientErr : Option String) (podName : String)
    (polls : List PollStep) : Except String Unit × List Event :=
  match clientErr with
  | some e => (Except.error e, [])
  | none =>
    let r := waitLoop polls
    (r.1, List.replicate r.2 (Event.podGet podName))

/-! ## Remote command execution

Embeds `execInPod` (`pkg/kubernetes/nodes.go` lines 284-335). The two
transport executors and the stream outcome are external behaviour and
are supplied by an oracle; the fallback rule, the predicate that selects
it, and the output interpretation are embedded from the source. -/

/-- An error from establishing or running a remote-command stream,
carrying the classification flags the fallback predicate inspects
(`httpstream.IsUpgradeFailure` and `httpstream.IsHTTPSProxyError`). -/
structure ExecError where
  msg : String
  upgradeFailure : Bool
  httpsProxyError : Bool
deriving DecidableEq, Repr

/-- Embeds the fallback predicate literal of `execInPod` (lines 309-311):
`httpstream.IsUpgradeFailure(err) || httpstream.IsHTTPSProxyError(err)`. -/
def shouldFallback (e : ExecError) : Bool :=
  e.upgradeFailure || e.httpsProxyError

/-- The outcome of streaming over one transport: an error (or none for
success) together with the text that transport wrote to the shared
standard-output and standard-error buffers. -/
structure StreamAttempt where
  err : Option ExecError
  stdoutWritten : String
  stderrWritten : String
deriving DecidableEq, Repr

/-- The two candidate transports. -/
inductive Transport where
  | websocket
  | spdy
deriving DecidableEq, Repr

/-- Modelled from the spec: `remotecommand.NewFallbackExecutor` of the
external client-go library, whose `StreamWithContext` runs the primary
executor and, exactly when the supplied predicate accepts the resulting
error, runs the secondary executor on the same stream options, returning
the secondary outcome as-is; any other outcome of the primary is final.
Returns the final stream error, the accumulated standard output and
standard error, and the transports attempted in order. The WebSocket
attempt is the primary and the SPDY attempt the secondary, as wired at
line 309. -/
def fallbackStream (ws spdy : StreamAttempt) :
    Option ExecError × String × String × List Transport :=
  match ws.err with
  | none => (none, ws.stdoutWritten, ws.stderrWritten, [Transport.websocket])
  | some e =>
    if shouldFallback e then
      match spdy.err with
      | none => (none, ws.stdoutWritten ++ spdy.stdoutWritten,
                 ws.stderrWritten ++ spdy.stderrWritten,
                 [Transport.websocket, Transport.spdy])
      | some e2 => (some e2, ws.stdoutWritten ++ spdy.stdoutWritten,
                    ws.stderrWritten ++ spdy.stderrWritten,
                    [Transport.websocket, Transport.spdy])
    else (some e, ws.stdoutWritten, ws.stderrWritten, [Transport.websocket])

/-- External outcomes an `execInPod` call can observe: constructor errors
for the two executors (lines 301-308) and the stream outcome of each
transport. -/
structure ExecOracle where
  spdyConstructErr : Option String
  wsConstructErr : Option String
  wsAttempt : StreamAttempt
  spdyAttempt : StreamAttempt
deriving DecidableEq, Repr

/-- Embeds `execInPod` (lines 284-335): build the SPDY executor, build
the WebSocket executor, combine them with the fallback predicate, stream,
then interpret the captured output. On a stream error with non-empty
captured standard error the message is
`exec error: <stderr>: <err>` (line 325); on success with empty standard
output and non-empty standard error, the standard error text is the
result (lines 330-332); otherwise the standard output is. -/
def execInPod (o : ExecOracle) : Except String String :=
  match o.spdyConstructErr with
  | some e => Except.error e
  | none =>
    match o.wsConstructErr with
    | some e => Except.error e
    | none =>
      let r := fallbackStream o.wsAttempt o.spdyAttempt
      match r.1 with
      | some e =>
        if r.2.2.1.length > 0 then
          Except.error ("exec error: " ++ r.2.2.1 ++ ": " ++ e.msg)
        else Except.error e.msg
      | none =>
        if r.2.2.1.length > 0 && r.2.1.length = 0 then Except.ok r.2.2.1
        else Except.ok r.2.1

/-! ## File operations and the NodesFiles entry point

Embeds `nodeFilesPut`, `nodeFilesGet`, `nodeFilesList` and `NodesFiles`
(`pkg/kubernetes/nodes.go` lines 124-281). Every outcome of an external
call is supplied by one oracle record; `execResults n` is the outcome of
the n-th `execInPod` call of the operation, abstracted to its final
result (the transport-level detail of `execInPod` is verified
separately above). -/

/-- External outcomes a `NodesFiles` call can observe. -/
structure NodesFilesOracle where
  podsClientErr : Option String
  createErr : Option String
  waitClientErr : Option String
  polls : List PollStep
  execResults : Nat → Except String String
  readFileResult : Except String String
  mkdirLocalErr : Option String
  writeLocalErr : Option String
  deleteErr : Option String
  randSuffix : String

/-- Embeds `nodeFilesPut` (lines 214-239): read the local source file,
create the remote destination directory when it is neither `.` nor `/`,
then write the single-quote-escaped content through a quoted here-document,
wrapping each failure with its stage message. -/
def nodeFilesPut (o : NodesFilesOracle) (sourcePath destPath : String) :
    Except String String × List Event :=
  match o.readFileResult with
  | Except.error e =>
    (Except.error ("failed to read source file: " ++ e), [Event.readFileLocal sourcePath])
  | Except.ok content =>
    let destDir := goDir destPath
    let okMsg := "File successfully copied from " ++ sourcePath ++ " to node:" ++ destPath
    if destDir != "." && destDir != "/" then
      let mkdirCmd := ["/bin/sh", "-c", "mkdir -p /host" ++ destDir]
      match o.execResults 0 with
      | Except.error e =>
        (Except.error ("failed to create destination directory: " ++ e),
         [Event.readFileLocal sourcePath, Event.execCall mkdirCmd])
      | Except.ok _ =>
        let writeCmd := ["/bin/sh", "-c", putWriteScript destPath content]
        match o.execResults 1 with
        | Except.error e =>
          (Except.error ("failed to write file to node: " ++ e),
           [Event.readFileLocal sourcePath, Event.execCall mkdirCmd, Event.execCall writeCmd])
        | Except.ok _ =>
          (Except.ok okMsg,
           [Event.readFileLocal sourcePath, Event.execCall mkdirCmd, Event.execCall writeCmd])
    else
      let writeCmd := ["/bin/sh", "-c", putWriteScript destPath content]
      match o.execResults 0 with
      | Except.error e =>
        (Except.error ("failed to write file to node: " ++ e),
         [Event.readFileLocal sourcePath, Event.execCall writeCmd])
      | Except.ok _ =>
        (Except.ok okMsg, [Event.readFileLocal sourcePath, Event.execCall writeCmd])

/-- Embeds `nodeFilesGet` (lines 242-269): read the remote file with
`cat`, default an empty destination to the base name of the source,
create the local destination directory when it is neither `.` nor empty,
then write the captured content verbatim. -/
def nodeFilesGet (o : NodesFilesOracle) (sourcePath destPath0 : String) :
    Except String String × List Event :=
  let readCmd := ["/bin/sh", "-c", "cat /host" ++ sourcePath]
  match o.execResults 0 with
  | Except.error e =>
    (Except.error ("failed to read file from node: " ++ e), [Event.execCall readCmd])
  | Except.ok content =>
    let destPath := if destPath0 = "" then goBase sourcePath else destPath0
    let destDir := goDir destPath
    let dirEvents := if destDir != "." && destDir != "" then [Event.mkdirAllLocal destDir] else []
    if destDir != "." && destDir != "" && o.mkdirLocalErr.isSome then
      (Except.error ("failed to create local directory: " ++ o.mkdirLocalErr.getD ""),
       Event.execCall readCmd :: dirEvents)
    else
      match o.writeLocalErr with
      | some e =>
        (Except.error ("failed to write local file: " ++ e),
         Event.execCall readCmd :: dirEvents ++ [Event.writeFileLocal destPath content])
      | none =>
        (Except.ok ("File successfully copied from node:" ++ sourcePath ++ " to " ++ destPath),
         Event.execCall readCmd :: dirEvents ++ [Event.writeFileLocal destPath content])

/-- Embeds `nodeFilesList` (lines 272-281): one `ls -la` under the mount
path; the raw output is the result. -/
def nodeFilesList (o : NodesFilesOracle) (path : String) :
    Except String String × List Event :=
  let listCmd := ["/bin/sh", "-c", "ls -la /host" ++ path]
  match o.execResults 0 with
  | Except.error e =>
    (Except.error ("failed to list directory: " ++ e), [Event.execCall listCmd])
  | Except.ok out => (Except.ok out, [Event.execCall listCmd])

/-- Embeds `NodesFiles` (lines 124-211): apply defaults, build the pod,
obtain the pods client, create the pod, register the deferred delete
(which runs under a fresh 30-second background-derived context and whose
error is discarded, lines 184-188), wait for readiness, dispatch on the
operation, and return; the deferred delete request is the last event of
every path entered after a successful create. -/
def NodesFiles (o : NodesFilesOracle) (opts0 : NodeFilesOptions) :
    Except String String × List Event :=
  let opts := applyNodeFilesDefaults opts0
  let podName := "node-files-" ++ o.randSuffix
  let pod := buildNodeFilesPod opts podName
  match o.podsClientErr with
  | some e => (Except.error ("failed to get pods client: " ++ e), [])
  | none =>
    match o.createErr with
    | some e => (Except.error ("failed to create pod: " ++ e), [Event.podCreate pod])
    | none =>
      let deleteEv := Event.podDelete (CtxKind.backgroundWithTimeoutSec 30) podName o.deleteErr
      let w := waitForPodReady o.waitClientErr podName o.polls
      let body : Except String String × List Event :=
        match w.1 with
        | Except.error e => (Except.error ("pod failed to become ready: " ++ e), w.2)
        | Except.ok _ =>
          let r :=
            if opts.Operation = "put" then nodeFilesPut o opts.SourcePath opts.DestPath
            else if opts.Operation = "get" then nodeFilesGet o opts.SourcePath opts.DestPath
            else if opts.Operation = "list" then nodeFilesList o opts.SourcePath
            else (Except.error ("unknown operation: " ++ opts.Operation), [])
          (r.1, w.2 ++ r.2)
      (body.1, Event.podCreate pod :: (body.2 ++ [deleteEv]))

/-! ## The node_files tool handler

Embeds `nodeFiles` (`pkg/toolsets/core/nodes.go` lines 237-291). Tool
arguments arrive as a JSON-like map; a Go type assertion
`args[k].(string)` succeeds exactly when the key is present with a
string value. -/

/-- A JSON-like argument value as the handler sees it. -/
inductive JsonVal where
  | str : String → JsonVal
  | bool : Bool → JsonVal
  | num : Int → JsonVal
  | null : JsonVal
deriving DecidableEq, Repr

/-- The argument map of a tool call. -/
def Args := List (String × JsonVal)

/-- Map lookup: the first binding of the key, if any. -/
def getArg (args : Args) (k : String) : Option JsonVal :=
  (args.find? (fun p => p.1 = k)).map (fun p => p.2)

/-- Embeds the Go pattern `v, ok := args[k].(string)`: the string value
and whether the assertion succeeded. -/
def getStrArg (args : Args) (k : String) : String × Bool :=
  match getArg args k with
  | some (JsonVal.str s) => (s, true)
  | _ => ("", false)

/-- Embeds the Go pattern `b, ok := args[k].(bool)`. -/
def getBoolArg (args : Args) (k : String) : Bool × Bool :=
  match getArg args k with
  | some (JsonVal.bool b) => (b, true)
  | _ => (false, false)

/-- Embeds `api.ToolCallResult` as the handler uses it: the content
string and the error message carried inside the result, if any. -/
structure ToolCallResult where
  content : String
  errMsg : Option String
deriving DecidableEq, Repr

/-- Embeds `api.NewToolCallResult`. -/
def NewToolCallResult (content : String) (err : Option String) : ToolCallResult :=
  { content := content, errMsg := err }

/-- Embeds the options record built by the handler (lines 273-282) from
already extracted and defaulted arguments. -/
def optsFromArgs (nodeName operation sourcePath destPath ns image : String)
    (privileged : Bool) : NodeFilesOptions :=
  { NodeName := nodeName, Operation := operation, SourcePath := sourcePath,
    DestPath := destPath, Namespace := ns, Image := image, Privileged := privileged }

/-- Embeds the argument extraction and defaulting of the handler (lines
256-282): `dest_path` falls back to the empty string, `namespace` to
`default` and `image` to `busybox` when absent, non-string or empty, and
`privileged` to `true` when absent or not a boolean. -/
def nodeFilesOpts (args : Args) : NodeFilesOptions :=
  optsFromArgs (getStrArg args "node_name").1 (getStrArg args "operation").1
    (getStrArg args "source_path").1 (getStrArg args "dest_path").1
    (if (getStrArg args "namespace").1 = "" then "default"
     else (getStrArg args "namespace").1)
    (if (getStrArg args "image").1 = "" then "busybox"
     else (getStrArg args "image").1)
    (if (getBoolArg args "privileged").2 then (getBoolArg args "privileged").1
     else true)

/-- Embeds the `nodeFiles` handler (lines 237-291): required string
arguments are rejected when absent, non-string or empty; the remaining
arguments are extracted and defaulted by `nodeFilesOpts`; every exit
returns a result together with a `nil` Go error. The request trace of
the underlying `NodesFiles` call is returned alongside (empty when
validation failed before the call). -/
def nodeFiles (o : NodesFilesOracle) (args : Args) :
    (ToolCallResult × Option String) × List Event :=
  if !(getStrArg args "node_name").2 || (getStrArg args "node_name").1 = "" then
    ((NewToolCallResult "" (some "missing required argument: node_name"), none), [])
  else if !(getStrArg args "operation").2 || (getStrArg args "operation").1 = "" then
    ((NewToolCallResult "" (some "missing required argument: operation"), none), [])
  else if !(getStrArg args "source_path").2 ||
      (getStrArg args "source_path").1 = "" then
    ((NewToolCallResult "" (some "missing required argument: source_path"), none), [])
  else
    match NodesFiles o (nodeFilesOpts args) with
    | (Except.error e, tr) =>
      ((NewToolCallResult ""
          (some ("failed to perform node file operation: " ++ e)), none), tr)
    | (Except.ok ret, tr) => ((NewToolCallResult ret none, none), tr)

/-! ## Shared helper lemmas and concrete instances -/

/-- A string is non-empty exactly when its length is positive. -/
theorem string_ne_empty_iff (s : String) : s ≠ "" ↔ 0 < s.length := by
  cases s with
  | mk l =>
    cases l with
    | nil => simp [String.length]
    | cons c cs => simp [String.length, String.ext_iff]

/-- A poll observation reporting the pod running and ready. -/
def readyPoll : PollStep :=
  { deadlineExceeded := false
    getResult := Except.ok
      { phase := PodPhase.running, conditions := [{ type := "Ready", status := "True" }] } }

/-- An oracle on which every external call succeeds. -/
def oracleAllOk : NodesFilesOracle :=
  { podsClientErr := none, createErr := none, waitClientErr := none
    polls := [readyPoll]
    execResults := fun _ => Except.ok "out"
    readFileResult := Except.ok "data"
    mkdirLocalErr := none, writeLocalErr := none, deleteErr := none
    randSuffix := "abcde" }

/-- Options carrying an operation outside put, get and list. -/
def optsInvalidOp : NodeFilesOptions :=
  { NodeName := "test-node", Operation := "invalid", SourcePath := "/tmp",
    DestPath := "", Namespace := "", Image := "", Privileged := true }

/-! ## Claim theorems -/

/-- Claim C3, refuted by evaluating the embedded code: Put followed by
Get does not return the original content. Under the write command built
by `nodeFilesPut` and the quoted-heredoc shell semantics it relies on,
the round trip of the spec example `hello\nworld` comes back with a
trailing newline appended, and content containing a single quote comes
back with the escape sequence `quote backslash quote quote` stored
literally in place of each quote, because the quoted delimiter makes the
shell take the body with no quote processing at all, so the escaping of
line 231 never collapses back. -/
theorem putGetRoundTrip_not_identity :
    putGetRoundTrip "hello\nworld" = "hello\nworld\n" ∧
    "hello\nworld\n" ≠ "hello\nworld" ∧
    putGetRoundTrip (String.mk [Char.ofNat 100, sq]) =
      String.mk [Char.ofNat 100, sq, bs, sq, sq, nl] ∧
    String.mk [Char.ofNat 100, sq, bs, sq, sq, nl] ≠ String.mk [Char.ofNat 100, sq] :=
  ⟨by decide, by decide, by decide, by decide⟩

/-- Claim C4: transport selection is a two-candidate fallback chain. The
WebSocket attempt runs first and alone decides the outcome on success;
the SPDY attempt runs exactly when the WebSocket failure satisfies the
classification predicate, and then the SPDY outcome (success or failure)
is surfaced as-is; an unclassified WebSocket failure is terminal with no
SPDY attempt; and the predicate is exactly upgrade-failure or
HTTPS-proxy rejection. -/
theorem fallbackStream_two_candidate_chain (ws spdy : StreamAttempt) :
    (ws.err = none →
      fallbackStream ws spdy =
        (none, ws.stdoutWritten, ws.stderrWritten, [Transport.websocket])) ∧
    (∀ e, ws.err = some e → shouldFallback e = true →
      (fallbackStream ws spdy).2.2.2 = [Transport.websocket, Transport.spdy] ∧
      (fallbackStream ws spdy).1 = spdy.err) ∧
    (∀ e, ws.err = some e → shouldFallback e = false →
      fallbackStream ws spdy =
        (some e, ws.stdoutWritten, ws.stderrWritten, [Transport.websocket])) ∧
    (∀ e, shouldFallback e = (e.upgradeFailure || e.httpsProxyError)) := by
  refine ⟨?_, ?_, ?_, fun e => rfl⟩
  · intro h
    unfold fallbackStream
    rw [h]
  · intro e h hf
    unfold fallbackStream
    rw [h]
    cases hs : spdy.err <;> simp [hf, hs]
  · intro e h hf
    unfold fallbackStream
    rw [h]
    simp [hf]

/-- A WebSocket stream attempt failing with a protocol-upgrade failure. -/
def wsUpgradeFail : StreamAttempt :=
  { err := some { msg := "upgrade failed", upgradeFailure := true, httpsProxyError := false }
    stdoutWritten := "", stderrWritten := "" }

/-- A SPDY stream attempt that succeeds. -/
def spdyOkAttempt : StreamAttempt :=
  { err := none, stdoutWritten := "ok", stderrWritten := "" }

/-- Witness for the fallback chain: an upgrade-failure on the WebSocket
attempt leads to both transports being attempted and the SPDY outcome
being surfaced. -/
theorem fallbackStream_two_candidate_chain_witness :
    (fallbackStream wsUpgradeFail spdyOkAttempt).2.2.2 =
      [Transport.websocket, Transport.spdy] ∧
    (fallbackStream wsUpgradeFail spdyOkAttempt).1 = spdyOkAttempt.err :=
  (fallbackStream_two_candidate_chain wsUpgradeFail spdyOkAttempt).2.1
    { msg := "upgrade failed", upgradeFailure := true, httpsProxyError := false } rfl rfl

/-- Claim C5: when the stream completes and the command wrote nothing to
standard output but something to standard error, `execInPod` returns the
standard-error text as its successful result; when the stream fails with
non-empty captured standard error, the returned error message is the
stderr text joined with the underlying transport error. -/
theorem execInPod_output_interpretation (o : ExecOracle)
    (hs : o.spdyConstructErr = none) (hw : o.wsConstructErr = none) :
    (∀ out err ts, fallbackStream o.wsAttempt o.spdyAttempt = (none, out, err, ts) →
      out = "" → err ≠ "" → execInPod o = Except.ok err) ∧
    (∀ e out err ts, fallbackStream o.wsAttempt o.spdyAttempt = (some e, out, err, ts) →
      err ≠ "" →
      execInPod o = Except.error ("exec error: " ++ err ++ ": " ++ e.msg)) := by
  constructor
  · intro out err ts hfb hout herr
    have h1 : 0 < err.length := (string_ne_empty_iff err).mp herr
    subst hout
    unfold execInPod
    rw [hs, hw]
    simp only [hfb]
    simp [h1]
  · intro e out err ts hfb herr
    have h1 : 0 < err.length := (string_ne_empty_iff err).mp herr
    unfold execInPod
    rw [hs, hw]
    simp only [hfb]
    simp [h1]

/-- An exec oracle whose command writes only to standard error. -/
def execOracleStderrOnly : ExecOracle :=
  { spdyConstructErr := none, wsConstructErr := none
    wsAttempt := { err := none, stdoutWritten := "", stderrWritten := "warning" }
    spdyAttempt := { err := none, stdoutWritten := "", stderrWritten := "" } }

/-- Witness for the output interpretation: with empty stdout and stderr
`warning`, the call succeeds with result `warning`. -/
theorem execInPod_output_interpretation_witness :
    execInPod execOracleStderrOnly = Except.ok "warning" :=
  (execInPod_output_interpretation execOracleStderrOnly rfl rfl).1 ""
    "warning" [Transport.websocket] rfl rfl (by decide)

/-- The readiness condition of a non-terminating observation makes the
running-and-ready test of the loop false. -/
theorem not_ready_cond_false {st : PodStatusM}
    (h : ¬(st.phase = PodPhase.running ∧ podIsReady st = true)) :
    (decide (st.phase = PodPhase.running) && podIsReady st) = false := by
  by_cases hp : st.phase = PodPhase.running
  · cases hr : podIsReady st
    · simp [hp, hr]
    · exact absurd ⟨hp, hr⟩ h
  · simp [hp]

/-- A non-terminating observation leaves the loop result unchanged. -/
theorem waitLoop_cons_continues (x : PollStep) (l : List PollStep)
    (hx : x.continues) : (waitLoop (x :: l)).1 = (waitLoop l).1 := by
  obtain ⟨hd, st, hget, hnr, hnf⟩ := hx
  have hcond := not_ready_cond_false hnr
  simp [waitLoop, hd, hget, hcond, hnf]

/-- Claim C6: the poll loop of `waitForPodReady` returns success exactly
when an observation shows the pod running with a true ready condition:
after any run of non-terminating observations, a deadline-exceeded check
gives the timeout error, a failed get gives that error immediately with
the remaining observations never consulted, a running-and-ready status
gives success, and a failed phase gives the pod-failed error; conversely
success arises only from a running-and-ready observation preceded by
non-terminating ones. -/
theorem waitLoop_poll_outcomes :
    (∀ pn polls, (waitForPodReady none pn polls).1 = (waitLoop polls).1) ∧
    (∀ pre s rest, (∀ x ∈ pre, x.continues) →
      ((s.deadlineExceeded = true →
         (waitLoop (pre ++ s :: rest)).1 =
           Except.error "timeout waiting for pod to be ready") ∧
       (∀ e, s.deadlineExceeded = false → s.getResult = Except.error e →
         (waitLoop (pre ++ s :: rest)).1 = Except.error e) ∧
       (∀ st, s.deadlineExceeded = false → s.getResult = Except.ok st →
         st.phase = PodPhase.running → podIsReady st = true →
         (waitLoop (pre ++ s :: rest)).1 = Except.ok ()) ∧
       (∀ st, s.deadlineExceeded = false → s.getResult = Except.ok st →
         st.phase = PodPhase.failed →
         (waitLoop (pre ++ s :: rest)).1 = Except.error "pod failed"))) ∧
    (∀ polls, (waitLoop polls).1 = Except.ok () →
      ∃ pre s rest st, polls = pre ++ s :: rest ∧ (∀ x ∈ pre, x.continues) ∧
        s.deadlineExceeded = false ∧ s.getResult = Except.ok st ∧
        st.phase = PodPhase.running ∧ podIsReady st = true) := by
  refine ⟨fun pn polls => rfl, ?_, ?_⟩
  · intro pre
    induction pre with
    | nil =>
      intro s rest _
      refine ⟨?_, ?_, ?_, ?_⟩
      · intro hd
        simp [waitLoop, hd]
      · intro e hd hget
        simp [waitLoop, hd, hget]
      · intro st hd hget hrun hready
        simp [waitLoop, hd, hget, hrun, hready]
      · intro st hd hget hfail
        have hnotrun : (st.phase = PodPhase.running) = False := by
          simp [hfail]
        simp [waitLoop, hd, hget, hfail, hnotrun]
    | cons x xs ih =>
      intro s rest hcont
      have hx : x.continues := hcont x (by simp)
      have hxs : ∀ y ∈ xs, y.continues := fun y hy => hcont y (by simp [hy])
      have hstep : (waitLoop ((x :: xs) ++ s :: rest)).1 =
          (waitLoop (xs ++ s :: rest)).1 :=
        waitLoop_cons_continues x (xs ++ s :: rest) hx
      obtain ⟨ih1, ih2, ih3, ih4⟩ := ih s rest hxs
      refine ⟨?_, ?_, ?_, ?_⟩
      · intro hd
        rw [hstep]
        exact ih1 hd
      · intro e hd hget
        rw [hstep]
        exact ih2 e hd hget
      · intro st hd hget hrun hready
        rw [hstep]
        exact ih3 st hd hget hrun hready
      · intro st hd hget hfail
        rw [hstep]
        exact ih4 st hd hget hfail
  · intro polls
    induction polls with
    | nil =>
      intro h
      simp [waitLoop] at h
    | cons s rest ih =>
      intro h
      by_cases hd : s.deadlineExceeded = true
      · simp [waitLoop, hd] at h
      · have hd2 : s.deadlineExceeded = false := by
          cases hb : s.deadlineExceeded
          · rfl
          · exact absurd hb hd
        cases hget : s.getResult with
        | error e => simp [waitLoop, hd2, hget] at h
        | ok st =>
          by_cases hterm : st.phase = PodPhase.running ∧ podIsReady st = true
          · exact ⟨[], s, rest, st, rfl, by simp, hd2, hget, hterm.1, hterm.2⟩
          · have hcond := not_ready_cond_false hterm
            by_cases hfail : st.phase = PodPhase.failed
            · simp [waitLoop, hd2, hget, hcond, hfail] at h
            · have hrec : (waitLoop rest).1 = Except.ok () := by
                simpa [waitLoop, hd2, hget, hcond, hfail] using h
              obtain ⟨pre2, s2, rest2, st2, hsplit, hpre2, e1, e2, e3, e4⟩ := ih hrec
              refine ⟨s :: pre2, s2, rest2, st2, by simp [hsplit], ?_, e1, e2, e3, e4⟩
              intro y hy
              rcases List.mem_cons.mp hy with hy1 | hy2
              · subst hy1
                exact ⟨hd2, st, hget, hterm, hfail⟩
              · exact hpre2 y hy2

/-- A poll observation with the pod still pending. -/
def pendingPoll : PollStep :=
  { deadlineExceeded := false
    getResult := Except.ok { phase := PodPhase.pending, conditions := [] } }

/-- Witness for the poll-loop outcomes: a pending observation followed by
a running-and-ready one yields success. -/
theorem waitLoop_poll_outcomes_witness :
    (waitLoop [pendingPoll, readyPoll]).1 = Except.ok () :=
  (waitLoop_poll_outcomes.2.1 [pendingPoll] readyPoll []
      (by
        intro x hx
        simp at hx
        subst hx
        exact ⟨rfl, { phase := PodPhase.pending, conditions := [] }, rfl,
          by decide, by decide⟩)).2.2.1
    { phase := PodPhase.running, conditions := [{ type := "Ready", status := "True" }] }
    rfl rfl rfl (by decide)

/-- The readiness-wait request trace holds no delete request. -/
theorem countDeletes_wait (ce : Option String) (pn : String)
    (polls : List PollStep) : countDeletes (waitForPodReady ce pn polls).2 = 0 := by
  cases ce <;>
    simp [waitForPodReady, countDeletes, List.countP_replicate, Event.isDelete]

/-- Delete requests count over a concatenation as the sum over parts. -/
theorem countDeletes_append (l1 l2 : List Event) :
    countDeletes (l1 ++ l2) = countDeletes l1 + countDeletes l2 := by
  simp [countDeletes, List.countP_append]

/-- A leading create request does not change the delete count. -/
theorem countDeletes_cons_create (p : PodM) (l : List Event) :
    countDeletes (Event.podCreate p :: l) = countDeletes l := by
  simp [countDeletes, List.countP_cons, Event.isDelete]

/-- A lone delete request counts as one. -/
theorem countDeletes_delete_singleton (c : CtxKind) (pn : String)
    (r : Option String) : countDeletes [Event.podDelete c pn r] = 1 := by
  simp [countDeletes, List.countP_cons, Event.isDelete]

/-- The put operation issues no delete request. -/
theorem countDeletes_put (o : NodesFilesOracle) (s d : String) :
    countDeletes (nodeFilesPut o s d).2 = 0 := by
  unfold nodeFilesPut
  repeat' split
  all_goals simp only [countDeletes, List.countP_cons, List.countP_nil, Event.isDelete]
  all_goals (repeat' split)
  all_goals simp_all

/-- The get operation issues no delete request. -/
theorem countDeletes_get (o : NodesFilesOracle) (s d : String) :
    countDeletes (nodeFilesGet o s d).2 = 0 := by
  unfold nodeFilesGet
  repeat' split
  all_goals simp only [countDeletes, List.countP_cons, List.countP_nil,
    List.countP_append, Event.isDelete]
  all_goals (repeat' split)
  all_goals simp_all

/-- The list operation issues no delete request. -/
theorem countDeletes_list (o : NodesFilesOracle) (s : String) :
    countDeletes (nodeFilesList o s).2 = 0 := by
  unfold nodeFilesList
  repeat' split
  all_goals simp only [countDeletes, List.countP_cons, List.countP_nil, Event.isDelete]
  all_goals (repeat' split)
  all_goals simp_all

/-- Create requests count over a concatenation as the sum over parts. -/
theorem countCreates_append (l1 l2 : List Event) :
    countCreates (l1 ++ l2) = countCreates l1 + countCreates l2 := by
  simp [countCreates, List.countP_append]

/-- A leading create request adds one to the create count. -/
theorem countCreates_cons_create (p : PodM) (l : List Event) :
    countCreates (Event.podCreate p :: l) = countCreates l + 1 := by
  simp [countCreates, List.countP_cons, Event.isCreate]

/-- A lone delete request adds nothing to the create count. -/
theorem countCreates_delete_singleton (c : CtxKind) (pn : String)
    (r : Option String) : countCreates [Event.podDelete c pn r] = 0 := by
  simp [countCreates, List.countP_cons, Event.isCreate]

/-- The readiness-wait request trace holds no create request. -/
theorem countCreates_wait (ce : Option String) (pn : String)
    (polls : List PollStep) : countCreates (waitForPodReady ce pn polls).2 = 0 := by
  cases ce <;>
    simp [waitForPodReady, countCreates, List.countP_replicate, Event.isCreate]

/-- The put operation issues no create request. -/
theorem countCreates_put (o : NodesFilesOracle) (s d : String) :
    countCreates (nodeFilesPut o s d).2 = 0 := by
  unfold nodeFilesPut
  repeat' split
  all_goals simp only [countCreates, List.countP_cons, List.countP_nil, Event.isCreate]
  all_goals (repeat' split)
  all_goals simp_all

/-- The get operation issues no create request. -/
theorem countCreates_get (o : NodesFilesOracle) (s d : String) :
    countCreates (nodeFilesGet o s d).2 = 0 := by
  unfold nodeFilesGet
  repeat' split
  all_goals simp only [countCreates, List.countP_cons, List.countP_nil,
    List.countP_append, Event.isCreate]
  all_goals (repeat' split)
  all_goals simp_all

/-- The list operation issues no create request. -/
theorem countCreates_list (o : NodesFilesOracle) (s : String) :
    countCreates (nodeFilesList o s).2 = 0 := by
  unfold nodeFilesList
  repeat' split
  all_goals simp only [countCreates, List.countP_cons, List.countP_nil, Event.isCreate]
  all_goals (repeat' split)
  all_goals simp_all

/-- Shape of the `NodesFiles` request trace once creation succeeded: the
create request first, the deferred delete request last, and a middle
section free of delete and of create requests. -/
theorem nodesFiles_trace_shape (o : NodesFilesOracle) (opts : NodeFilesOptions)
    (hc : o.podsClientErr = none) (he : o.createErr = none) :
    ∃ mid, ((NodesFiles o opts).2 =
      Event.podCreate (buildNodeFilesPod (applyNodeFilesDefaults opts)
        ("node-files-" ++ o.randSuffix)) ::
        (mid ++ [Event.podDelete (CtxKind.backgroundWithTimeoutSec 30)
          ("node-files-" ++ o.randSuffix) o.deleteErr]) ∧
      countDeletes mid = 0 ∧ countCreates mid = 0) := by
  simp only [NodesFiles, hc, he]
  cases hw : (waitForPodReady o.waitClientErr ("node-files-" ++ o.randSuffix) o.polls).1 with
  | error e =>
    refine ⟨(waitForPodReady o.waitClientErr ("node-files-" ++ o.randSuffix) o.polls).2,
      by simp [hw], countDeletes_wait _ _ _, countCreates_wait _ _ _⟩
  | ok u =>
    by_cases hput : (applyNodeFilesDefaults opts).Operation = "put"
    · refine ⟨(waitForPodReady o.waitClientErr ("node-files-" ++ o.randSuffix) o.polls).2 ++
        (nodeFilesPut o (applyNodeFilesDefaults opts).SourcePath
          (applyNodeFilesDefaults opts).DestPath).2, by simp [hw, hput], ?_, ?_⟩
      · rw [countDeletes_append, countDeletes_wait, countDeletes_put]
      · rw [countCreates_append, countCreates_wait, countCreates_put]
    · by_cases hget : (applyNodeFilesDefaults opts).Operation = "get"
      · refine ⟨(waitForPodReady o.waitClientErr ("node-files-" ++ o.randSuffix) o.polls).2 ++
          (nodeFilesGet o (applyNodeFilesDefaults opts).SourcePath
            (applyNodeFilesDefaults opts).DestPath).2, by simp [hw, hput, hget], ?_, ?_⟩
        · rw [countDeletes_append, countDeletes_wait, countDeletes_get]
        · rw [countCreates_append, countCreates_wait, countCreates_get]
      · by_cases hlist : (applyNodeFilesDefaults opts).Operation = "list"
        · refine ⟨(waitForPodReady o.waitClientErr ("node-files-" ++ o.randSuffix) o.polls).2 ++
            (nodeFilesList o (applyNodeFilesDefaults opts).SourcePath).2,
            by simp [hw, hput, hget, hlist], ?_, ?_⟩
          · rw [countDeletes_append, countDeletes_wait, countDeletes_list]
          · rw [countCreates_append, countCreates_wait, countCreates_list]
        · refine ⟨(waitForPodReady o.waitClientErr ("node-files-" ++ o.randSuffix) o.polls).2,
            by simp [hw, hput, hget, hlist], countDeletes_wait _ _ _,
            countCreates_wait _ _ _⟩

/-- Once the pods client is obtained, the first request of `NodesFiles`
is the create request for the built pod manifest. -/
theorem nodesFiles_trace_head (o : NodesFilesOracle) (opts : NodeFilesOptions)
    (hc : o.podsClientErr = none) :
    (NodesFiles o opts).2.head? = some (Event.podCreate
      (buildNodeFilesPod (applyNodeFilesDefaults opts)
        ("node-files-" ++ o.randSuffix))) := by
  simp only [NodesFiles, hc]
  cases hcr : o.createErr with
  | some e => simp
  | none => simp

/-- Claim C1: once pod creation has succeeded, every exit path of
`NodesFiles` issues exactly one delete request for the sandbox pod:
success, readiness-wait failure, operation failure, and the
unknown-operation error path alike, never zero and never two. The
quantification over the oracle covers every exit path. -/
theorem nodesFiles_exactly_one_delete (o : NodesFilesOracle)
    (opts : NodeFilesOptions) (hc : o.podsClientErr = none)
    (he : o.createErr = none) : countDeletes (NodesFiles o opts).2 = 1 := by
  obtain ⟨mid, hshape, hmid, hmcre⟩ := nodesFiles_trace_shape o opts hc he
  rw [hshape, countDeletes_cons_create, countDeletes_append, hmid,
    countDeletes_delete_singleton]

/-- Options for a plain list operation. -/
def optsListTmp : NodeFilesOptions :=
  { NodeName := "test-node", Operation := "list", SourcePath := "/tmp",
    DestPath := "", Namespace := "", Image := "", Privileged := true }

/-- Witness for the exactly-one-delete invariant on a concrete
all-success run. -/
theorem nodesFiles_exactly_one_delete_witness :
    countDeletes (NodesFiles oracleAllOk optsListTmp).2 = 1 :=
  nodesFiles_exactly_one_delete oracleAllOk optsListTmp rfl rfl

/-- The put operation depends only on the local read and exec outcomes. -/
theorem nodeFilesPut_oracle_congr (o o2 : NodesFilesOracle)
    (h1 : o.readFileResult = o2.readFileResult)
    (h2 : o.execResults = o2.execResults) (s d : String) :
    nodeFilesPut o s d = nodeFilesPut o2 s d := by
  unfold nodeFilesPut
  rw [h1, h2]

/-- The get operation depends only on the exec and local write outcomes. -/
theorem nodeFilesGet_oracle_congr (o o2 : NodesFilesOracle)
    (h1 : o.execResults = o2.execResults)
    (h2 : o.mkdirLocalErr = o2.mkdirLocalErr)
    (h3 : o.writeLocalErr = o2.writeLocalErr) (s d : String) :
    nodeFilesGet o s d = nodeFilesGet o2 s d := by
  unfold nodeFilesGet
  rw [h1, h2, h3]

/-- The list operation depends only on the exec outcome. -/
theorem nodeFilesList_oracle_congr (o o2 : NodesFilesOracle)
    (h1 : o.execResults = o2.execResults) (s : String) :
    nodeFilesList o s = nodeFilesList o2 s := by
  unfold nodeFilesList
  rw [h1]

/-- Claim C7: the teardown delete request of `NodesFiles` always runs
under a fresh context derived from the background context with its own
30-second timeout, never under the caller's context, and the result of
the call never depends on the outcome of the delete. -/
theorem nodesFiles_teardown_decoupled (o : NodesFilesOracle)
    (opts : NodeFilesOptions) :
    (∀ c pn res, Event.podDelete c pn res ∈ (NodesFiles o opts).2 →
      c = CtxKind.backgroundWithTimeoutSec 30) ∧
    (∀ e, (NodesFiles { o with deleteErr := e } opts).1 =
      (NodesFiles o opts).1) := by
  constructor
  · intro c pn res hmem
    cases hc : o.podsClientErr with
    | some e0 => simp [NodesFiles, hc] at hmem
    | none =>
      cases he : o.createErr with
      | some e0 => simp [NodesFiles, hc, he] at hmem
      | none =>
        obtain ⟨mid, hshape, hmid, hmcre⟩ := nodesFiles_trace_shape o opts hc he
        rw [hshape] at hmem
        rcases List.mem_cons.mp hmem with h1 | h2
        · exact absurd h1 (by simp)
        · rcases List.mem_append.mp h2 with h3 | h4
          · simp only [countDeletes] at hmid
            have h6 := List.countP_eq_zero.mp hmid _ h3
            simp [Event.isDelete] at h6
          · have h5 : Event.podDelete c pn res =
                Event.podDelete (CtxKind.backgroundWithTimeoutSec 30)
                  ("node-files-" ++ o.randSuffix) o.deleteErr := by
              simpa using h4
            injection h5 with hca hcb hcc
  · intro e
    cases hc : o.podsClientErr with
    | some e0 => simp [NodesFiles, hc]
    | none =>
      cases he : o.createErr with
      | some e0 => simp [NodesFiles, hc, he]
      | none =>
        simp only [NodesFiles, hc, he]
        cases hw : (waitForPodReady o.waitClientErr
            ("node-files-" ++ o.randSuffix) o.polls).1 with
        | error e2 => simp [hw]
        | ok u =>
          by_cases hput : (applyNodeFilesDefaults opts).Operation = "put"
          · simpa [hw, hput] using congrArg Prod.fst
              (nodeFilesPut_oracle_congr { o with deleteErr := e } o rfl rfl
                (applyNodeFilesDefaults opts).SourcePath
                (applyNodeFilesDefaults opts).DestPath)
          · by_cases hget : (applyNodeFilesDefaults opts).Operation = "get"
            · simpa [hw, hput, hget] using congrArg Prod.fst
                (nodeFilesGet_oracle_congr { o with deleteErr := e } o rfl rfl rfl
                  (applyNodeFilesDefaults opts).SourcePath
                  (applyNodeFilesDefaults opts).DestPath)
            · by_cases hlist : (applyNodeFilesDefaults opts).Operation = "list"
              · simpa [hw, hput, hget, hlist] using congrArg Prod.fst
                  (nodeFilesList_oracle_congr { o with deleteErr := e } o rfl
                    (applyNodeFilesDefaults opts).SourcePath)
              · simp [hw, hput, hget, hlist]

/-- Witness for the decoupled teardown: on a concrete run the delete
request carries the background-derived 30-second context, and replacing
the delete outcome with a failure leaves the result unchanged. -/
theorem nodesFiles_teardown_decoupled_witness :
    CtxKind.backgroundWithTimeoutSec 30 = CtxKind.backgroundWithTimeoutSec 30 ∧
    (NodesFiles { oracleAllOk with deleteErr := some "boom" } optsListTmp).1 =
      (NodesFiles oracleAllOk optsListTmp).1 :=
  ⟨(nodesFiles_teardown_decoupled oracleAllOk optsListTmp).1
      (CtxKind.backgroundWithTimeoutSec 30) "node-files-abcde" none (by decide),
    (nodesFiles_teardown_decoupled oracleAllOk optsListTmp).2 (some "boom")⟩

/-- Claim C2, refuted by evaluating the embedded code at a concrete
input: on a run where creation and readiness both succeed, a call with
`operation = "invalid"` does fail with the unknown-operation error, but
a pod-create request IS issued, so the validation does not occur before
sandbox creation. -/
theorem nodesFiles_invalid_op_creates_pod :
    countCreates (NodesFiles oracleAllOk optsInvalidOp).2 = 1 ∧
    (NodesFiles oracleAllOk optsInvalidOp).1 =
      Except.error "unknown operation: invalid" :=
  ⟨by decide, by decide⟩

/-- Claim C2 amended: a call whose operation is not one of put, get and
list fails with an error identifying the unknown operation, but the
check runs only inside the operation dispatch, after the sandbox pod has
been created and awaited ready: exactly one pod-create request is
issued on such a call, and the pod is deleted afterwards like on any
other path. -/
theorem nodesFiles_unknown_op_late_validation (o : NodesFilesOracle)
    (opts : NodeFilesOptions) (hc : o.podsClientErr = none)
    (he : o.createErr = none) (hput : opts.Operation ≠ "put")
    (hget : opts.Operation ≠ "get") (hlist : opts.Operation ≠ "list")
    (hw : (waitForPodReady o.waitClientErr ("node-files-" ++ o.randSuffix)
      o.polls).1 = Except.ok ()) :
    (NodesFiles o opts).1 =
      Except.error ("unknown operation: " ++ opts.Operation) ∧
    countCreates (NodesFiles o opts).2 = 1 := by
  have hop : (applyNodeFilesDefaults opts).Operation = opts.Operation := rfl
  constructor
  · simp only [NodesFiles, hc, he]
    simp [hw, hop, hput, hget, hlist]
  · obtain ⟨mid, hshape, hmdel, hmcre⟩ := nodesFiles_trace_shape o opts hc he
    rw [hshape, countCreates_cons_create, countCreates_append, hmcre,
      countCreates_delete_singleton]

/-- Witness for the amended unknown-operation behaviour on a concrete
all-success run. -/
theorem nodesFiles_unknown_op_late_validation_witness :
    (NodesFiles oracleAllOk optsInvalidOp).1 =
      Except.error ("unknown operation: " ++ optsInvalidOp.Operation) ∧
    countCreates (NodesFiles oracleAllOk optsInvalidOp).2 = 1 :=
  nodesFiles_unknown_op_late_validation oracleAllOk optsInvalidOp rfl rfl
    (by decide) (by decide) (by decide) (by decide)

/-- Claim C8: on a Get with an empty destination path, the destination
defaults to the base name of the source path (a bare relative name, so
the local write lands in the current working directory); the local
destination directory is created before the write whenever it is
non-trivial; the captured remote content is written to the destination
verbatim; and the confirmation string names both the source and the
destination. The result and the full ordered request trace are
characterised. -/
theorem nodeFilesGet_empty_dest (o : NodesFilesOracle) (src content : String)
    (hx : o.execResults 0 = Except.ok content) (hm : o.mkdirLocalErr = none)
    (hwr : o.writeLocalErr = none) :
    nodeFilesGet o src "" =
      (Except.ok ("File successfully copied from node:" ++ src ++ " to " ++
          goBase src),
       Event.execCall ["/bin/sh", "-c", "cat /host" ++ src] ::
         ((if goDir (goBase src) != "." && goDir (goBase src) != "" then
             [Event.mkdirAllLocal (goDir (goBase src))]
           else []) ++
          [Event.writeFileLocal (goBase src) content])) := by
  unfold nodeFilesGet
  rw [hx]
  simp [hm, hwr]

/-- Witness: getting `/proc/meminfo` with an empty destination writes a
local file named `meminfo` holding the captured content and reports both
paths. -/
theorem nodeFilesGet_empty_dest_witness :
    nodeFilesGet { oracleAllOk with execResults := fun _ => Except.ok "MemTotal: 1" }
      "/proc/meminfo" "" =
      (Except.ok "File successfully copied from node:/proc/meminfo to meminfo",
       [Event.execCall ["/bin/sh", "-c", "cat /host/proc/meminfo"],
        Event.writeFileLocal "meminfo" "MemTotal: 1"]) := by
  rw [nodeFilesGet_empty_dest
    { oracleAllOk with execResults := fun _ => Except.ok "MemTotal: 1" }
    "/proc/meminfo" "MemTotal: 1" rfl rfl rfl]
  decide

/-- A required string argument is usable: present as a non-empty string. -/
def requiredPresent (args : Args) (k : String) : Prop :=
  (getStrArg args k).2 = true ∧ (getStrArg args k).1 ≠ ""

instance (args : Args) (k : String) : Decidable (requiredPresent args k) := by
  unfold requiredPresent
  infer_instance

/-- Claim C9: when the required arguments are usable and namespace, image
and privileged are unset (absent, of the wrong type, or the strings
empty), the defaults namespace `default`, image `busybox` and privileged
`true` are in force before the sandbox pod manifest is built: the pod of
the create request carries exactly those values. -/
theorem nodeFiles_applies_defaults (o : NodesFilesOracle) (args : Args)
    (h1 : (getStrArg args "node_name").2 = true)
    (h1e : (getStrArg args "node_name").1 ≠ "")
    (h2 : (getStrArg args "operation").2 = true)
    (h2e : (getStrArg args "operation").1 ≠ "")
    (h3 : (getStrArg args "source_path").2 = true)
    (h3e : (getStrArg args "source_path").1 ≠ "")
    (hns : (getStrArg args "namespace").1 = "")
    (him : (getStrArg args "image").1 = "")
    (hpr : (getBoolArg args "privileged").2 = false)
    (hc : o.podsClientErr = none) :
    ∃ p, (nodeFiles o args).2.head? = some (Event.podCreate p) ∧
      p.Namespace = "default" ∧
      p.spec.containers.map (fun c => c.image) = ["busybox"] ∧
      p.spec.containers.map (fun c => c.securityContext.privileged) = [true] := by
  have c1 : (!(getStrArg args "node_name").2 ||
      (getStrArg args "node_name").1 = "") = false := by simp [h1, h1e]
  have c2 : (!(getStrArg args "operation").2 ||
      (getStrArg args "operation").1 = "") = false := by simp [h2, h2e]
  have c3 : (!(getStrArg args "source_path").2 ||
      (getStrArg args "source_path").1 = "") = false := by simp [h3, h3e]
  have hopts : applyNodeFilesDefaults (nodeFilesOpts args) =
      optsFromArgs (getStrArg args "node_name").1 (getStrArg args "operation").1
        (getStrArg args "source_path").1 (getStrArg args "dest_path").1
        "default" "busybox" true := by
    unfold nodeFilesOpts optsFromArgs applyNodeFilesDefaults
    rw [hns, him, hpr]
    simp
  refine ⟨buildNodeFilesPod (applyNodeFilesDefaults (nodeFilesOpts args))
      ("node-files-" ++ o.randSuffix), ?_, ?_, ?_, ?_⟩
  · unfold nodeFiles
    rw [if_neg (by simp [c1]), if_neg (by simp [c2]), if_neg (by simp [c3])]
    have hh := nodesFiles_trace_head o (nodeFilesOpts args) hc
    rcases hN : NodesFiles o (nodeFilesOpts args) with ⟨res, tr⟩
    rw [hN] at hh
    cases res <;> simpa using hh
  · rw [hopts]
    simp [buildNodeFilesPod, optsFromArgs]
  · rw [hopts]
    simp [buildNodeFilesPod, optsFromArgs]
  · rw [hopts]
    simp [buildNodeFilesPod, optsFromArgs]

/-- Arguments carrying only the three required keys. -/
def argsRequiredOnly : Args :=
  [("node_name", JsonVal.str "test-node"), ("operation", JsonVal.str "list"),
   ("source_path", JsonVal.str "/tmp")]

/-- Witness for the defaults: with only required arguments supplied, the
created pod uses namespace `default`, image `busybox` and privileged
`true`. -/
theorem nodeFiles_applies_defaults_witness :
    ∃ p, (nodeFiles oracleAllOk argsRequiredOnly).2.head? =
        some (Event.podCreate p) ∧
      p.Namespace = "default" ∧
      p.spec.containers.map (fun c => c.image) = ["busybox"] ∧
      p.spec.containers.map (fun c => c.securityContext.privileged) = [true] :=
  nodeFiles_applies_defaults oracleAllOk argsRequiredOnly rfl (by decide) rfl
    (by decide) rfl (by decide) rfl rfl rfl rfl

/-- Claim C10: for every input map the handler returns a result together
with a nil Go-level error, and a missing, non-string or empty required
argument is conveyed inside the result as the corresponding
missing-argument message, the empty string behaving exactly like an
absent argument. -/
theorem nodeFiles_result_no_go_error (o : NodesFilesOracle) (args : Args) :
    (nodeFiles o args).1.2 = none ∧
    (¬requiredPresent args "node_name" →
      (nodeFiles o args).1.1 =
        NewToolCallResult "" (some "missing required argument: node_name")) ∧
    (requiredPresent args "node_name" → ¬requiredPresent args "operation" →
      (nodeFiles o args).1.1 =
        NewToolCallResult "" (some "missing required argument: operation")) ∧
    (requiredPresent args "node_name" → requiredPresent args "operation" →
      ¬requiredPresent args "source_path" →
      (nodeFiles o args).1.1 =
        NewToolCallResult "" (some "missing required argument: source_path")) := by
  have hcond : ∀ k : String, ¬requiredPresent args k →
      (!(getStrArg args k).2 || (getStrArg args k).1 = "") = true := by
    intro k hk
    by_cases hb : (getStrArg args k).2 = true
    · have he : (getStrArg args k).1 = "" := by
        by_contra hne
        exact hk ⟨hb, hne⟩
      simp [he]
    · have hbf : (getStrArg args k).2 = false := by
        cases hx : (getStrArg args k).2
        · rfl
        · exact absurd hx hb
      simp [hbf]
  have hcondF : ∀ k : String, requiredPresent args k →
      (!(getStrArg args k).2 || (getStrArg args k).1 = "") = false := by
    intro k hk
    simp [hk.1, hk.2]
  refine ⟨?_, ?_, ?_, ?_⟩
  · unfold nodeFiles
    repeat' split
    all_goals rfl
  · intro hk
    unfold nodeFiles
    rw [if_pos (hcond "node_name" hk)]
  · intro hk1 hk2
    unfold nodeFiles
    rw [if_neg (by simp [hcondF "node_name" hk1]),
      if_pos (hcond "operation" hk2)]
  · intro hk1 hk2 hk3
    unfold nodeFiles
    rw [if_neg (by simp [hcondF "node_name" hk1]),
      if_neg (by simp [hcondF "operation" hk2]),
      if_pos (hcond "source_path" hk3)]

/-- Witness: on an empty argument map the handler returns a nil Go error
and the missing-node-name message inside the result. -/
theorem nodeFiles_result_no_go_error_witness :
    (nodeFiles oracleAllOk []).1.2 = none ∧
    (nodeFiles oracleAllOk []).1.1 =
      NewToolCallResult "" (some "missing required argument: node_name") :=
  ⟨(nodeFiles_result_no_go_error oracleAllOk []).1,
    (nodeFiles_result_no_go_error oracleAllOk []).2.1 (by decide)⟩

end KMcp
